import Mathlib

/-
  Verification development for the bbg-tcg-sorter repository.

  The Python source is shallowly embedded below.  Pure helpers become Lean
  functions; the stateful sorting worker becomes explicit state passing over
  an orchestrator state record; the hardware scripts become functions from
  environment traces (sensor poll levels, subprocess outcomes) to final
  device states and action traces.  Wall-clock times are modelled in whole
  milliseconds; poll iterations of the busy-wait debounce loop are idealised
  as happening exactly one poll interval apart.
-/

namespace Sorter

/-! ## Python string primitives used by `Basic-Website.py`

Python `str.strip`, `str.lower`, `str.upper`, `str.split("-")`, the `in`
substring operator, and single-character string comparison (code-point
order).  Case mapping is modelled with Lean's ASCII `Char.toLower` /
`Char.toUpper`; the criteria strings the program compares are ASCII. -/

def pyIsSpace (c : Char) : Bool :=
  c == ' ' || c == '\t' || c == '\n' || c == '\r' || c == '\x0b' || c == '\x0c'

def pyStrip (s : String) : String :=
  String.mk (((s.data.dropWhile pyIsSpace).reverse.dropWhile pyIsSpace).reverse)

def pyLower (s : String) : String :=
  String.mk (s.data.map Char.toLower)

def splitCharAux (sep : Char) : List Char → List Char → List (List Char)
  | [], acc => [acc.reverse]
  | c :: cs, acc =>
    if c == sep then acc.reverse :: splitCharAux sep cs []
    else splitCharAux sep cs (c :: acc)

/-- Python `s.split(sep)` for a single-character separator. -/
def pySplit (s : String) (sep : Char) : List String :=
  (splitCharAux sep s.data []).map String.mk

def listPrefixOf : List Char → List Char → Bool
  | [], _ => true
  | _ :: _, [] => false
  | a :: as, b :: bs => a == b && listPrefixOf as bs

def listSub (needle : List Char) : List Char → Bool
  | [] => needle.isEmpty
  | c :: cs => listPrefixOf needle (c :: cs) || listSub needle cs

/-- Python `needle in hay` (contiguous substring test). -/
def strIn (needle hay : String) : Bool :=
  listSub needle.data hay.data

/-- Python `set(a) == set(b)` for lists of strings. -/
def pySetEq (a b : List String) : Bool :=
  a.all (fun x => b.contains x) && b.all (fun x => a.contains x)

/-! ## Data model

`Criteria` is one slot of the ten-slot `box_criteria` table, exactly the
dictionary built by the `submit_card` handler (`Basic-Website.py` lines
395-406): every key is always present, strings default to `""`, colors to
`[]`.  `Card` is the identified-card record consumed by `matches_criteria`
and the sorting loop; its complexity value `cmc` is the numeric value the
identification service returns. -/

structure Criteria where
  name : String := ""
  type : String := ""
  cmc : String := ""
  set_symbol : String := ""
  colors : List String := []
deriving DecidableEq, Repr

structure Card where
  name : String := ""
  type : String := ""
  cmc : Rat := 0
  set_symbol : String := ""
  colors : List String := []
  error : Option String := none
  card_identified_url : String := ""
deriving DecidableEq, Repr

/-- Partial model of Python `float(s)` on decimal literals (optional sign,
optional fractional part); forms such as exponents or `inf` are not produced
by the web form and are not modelled.  `none` models `ValueError`. -/
def pyFloat? (s : String) : Option Rat :=
  let t := (pyStrip s).data
  let signed : Rat × List Char :=
    match t with
    | '-' :: rest => (-1, rest)
    | '+' :: rest => (1, rest)
    | l => (1, l)
  let sgn := signed.1
  let body := signed.2
  let digitsVal : List Char → Nat := fun l => l.foldl (fun a c => a * 10 + (c.toNat - 48)) 0
  match splitCharAux '.' body [] with
  | [ip] =>
    if ip ≠ [] ∧ ip.all Char.isDigit then some (sgn * (digitsVal ip : Rat)) else none
  | [ip, fp] =>
    if (ip ≠ [] ∨ fp ≠ []) ∧ ip.all Char.isDigit ∧ fp.all Char.isDigit then
      some (sgn * ((digitsVal ip : Rat) + (digitsVal fp : Rat) / ((10 : Rat) ^ fp.length)))
    else none
  | _ => none

/-! ## `matches_criteria` (`Basic-Website.py` lines 150-204)

The Python early-return chain is written as the equivalent conjunction of
per-field conditions; each non-empty field must pass its check.  Sub-checks
are factored into named functions mirroring the corresponding code block. -/

/-- Name criterion, lines 159-177.  A filter containing `-` that splits into
exactly two parts of stripped length 1 is treated as a first-letter range
(code points compared after uppercasing); anything else is a case-insensitive
substring test. -/
def nameCheck (nameCritRaw cardNameRaw : String) : Bool :=
  let name_crit := pyStrip nameCritRaw
  let card_name := pyStrip cardNameRaw
  if name_crit.data.contains '-' then
    match pySplit name_crit '-' with
    | [p0, p1] =>
      if (pyStrip p0).length = 1 ∧ (pyStrip p1).length = 1 then
        if card_name = "" then false
        else
          let fc := Char.toUpper (card_name.data.headD ' ')
          let sc := Char.toUpper ((pyStrip p0).data.headD ' ')
          let ec := Char.toUpper ((pyStrip p1).data.headD ' ')
          !(decide (fc < sc) || decide (ec < fc))
      else strIn (pyLower name_crit) (pyLower card_name)
    | _ => strIn (pyLower name_crit) (pyLower card_name)
  else strIn (pyLower name_crit) (pyLower card_name)

/-- Complexity criterion, lines 183-188: both sides parsed as floats, exact
equality; an unparsable filter value never matches. -/
def cmcCheck (critCmc : String) (cardCmc : Rat) : Bool :=
  match pyFloat? critCmc with
  | none => false
  | some q => decide (q = cardCmc)

/-- Colors criterion, lines 194-202: the colorless marker set `{"C"}` matches
only an empty card color set; any other filter set requires exact set
equality. -/
def colorsCheck (critColors cardColors : List String) : Bool :=
  if pySetEq critColors ["C"] then cardColors.isEmpty
  else pySetEq critColors cardColors

/-- Guard of lines 152-157: a criteria entry counts as specified only if at
least one of name / type (other than the `-none-` sentinel) / cmc / set /
colors is set (Python truthiness: non-empty string, non-empty list). -/
def criteriaNonEmpty (c : Criteria) : Bool :=
  c.name != "" || (c.type != "" && pyLower c.type != "-none-") ||
    c.cmc != "" || c.set_symbol != "" || !c.colors.isEmpty

def matches_criteria (card : Card) (criteria : Criteria) : Bool :=
  if criteriaNonEmpty criteria then
    (if criteria.name != "" then nameCheck criteria.name card.name else true)
    && (if criteria.type != "" && pyLower criteria.type != "-none-" then
          strIn (pyLower criteria.type) (pyLower card.type) else true)
    && (if criteria.cmc != "" then cmcCheck criteria.cmc card.cmc else true)
    && (if criteria.set_symbol != "" then
          strIn (pyLower criteria.set_symbol) (pyLower card.set_symbol) else true)
    && (if !criteria.colors.isEmpty then colorsCheck criteria.colors card.colors else true)
  else false

/-! ## Routing decision (`Basic-Website.py` lines 323-334)

The sorting loop scans boxes 1..10 in order, selects the first whose criteria
match, and falls back to box 10.  The criteria table is total (a missing slot
is the empty dictionary, which never matches). -/

def select_box (card : Card) (tbl : Nat → Criteria) : Nat :=
  match List.find? (fun i => matches_criteria card (tbl i)) (List.range' 1 10) with
  | some i => i
  | none => 10

/-! ## Sorting worker (`sorting_loop`, `Basic-Website.py` lines 259-365)

One loop iteration is modelled as `sorting_cycle`, a function from a cycle
environment (outcomes of the subprocess calls) and the orchestrator state to
the successor state plus the trace of externally visible actions the
iteration performed, in order.  Sleeps are recorded in milliseconds.
Display-only side effects with no control-flow role (console prints, the
CSV/image file contents) are represented by their trace markers only. -/

inductive Act where
  | feedAttempt
  | sleepMs (ms : Nat)
  | identify
  | csvAppend
  | urlUpdate (u : String)
  | archiveFailed
  | routeConsult
  | flapperOpen (b : Nat)
  | flapperClose (b : Nat)
  | release
  | capture
  | updateImgs
deriving DecidableEq, Repr

/-- Dispense command sequence for a selected box, lines 339-350.  Box 10:
release, 2 s settle pause, capture.  Any other box: open its flapper,
release, 2 s pause, close its flapper, capture. -/
def dispense_actions (b : Nat) : List Act :=
  if b = 10 then [Act.release, Act.sleepMs 2000, Act.capture]
  else [Act.flapperOpen b, Act.release, Act.sleepMs 2000,
        Act.flapperClose b, Act.capture]

/-- Outcome of the `Read-Card.py` identification call (line 275): the process
can exit nonzero (`CalledProcessError`), print stdout that is not valid JSON,
or print a parsed card record (possibly carrying an `error` key). -/
inductive IdentOutcome where
  | procFailure
  | unparsable
  | parsed (c : Card)
deriving Repr

/-- Per-cycle environment: outcomes of the fallible external steps.
`dispensePrefix` is how many dispense commands complete before a dispense
script fault aborts the remainder (any value ≥ the sequence length means the
whole dispense succeeds). -/
structure CycleEnv where
  feed1ok : Bool
  feed2ok : Bool
  ident : IdentOutcome
  csvEnabled : Bool
  dispensePrefix : Nat
deriving Repr

structure OrchState where
  running : Bool
  moveCount : Nat
  monthlyCount : Nat
  failedCount : Nat
deriving DecidableEq, Repr

structure CycleResult where
  st : OrchState
  trace : List Act
  box : Option Nat
deriving Repr

/-- Lines 361-364: lifetime and monthly counters increment and persist at the
end of every non-aborted iteration. -/
def bumpCounts (s : OrchState) : OrchState :=
  { s with moveCount := s.moveCount + 1, monthlyCount := s.monthlyCount + 1 }

/-- The placeholder record the loop substitutes on a JSON decode error
(line 280). -/
def errorCard : Card := { error := some "Decoding error" }

/-- Dispense plus end-of-iteration bookkeeping (lines 339-365).  On a
dispense script fault (`CalledProcessError`, caught at line 356) only a
prefix of the command sequence has run and `update_images` is skipped, but
the counters still increment and the 0.5 s pause still happens. -/
def finishDispense (env : CycleEnv) (s : OrchState) (tr : List Act)
    (box : Nat) : CycleResult :=
  let d := dispense_actions box
  if d.length ≤ env.dispensePrefix then
    { st := bumpCounts s, trace := tr ++ d ++ [Act.updateImgs, Act.sleepMs 500],
      box := some box }
  else
    { st := bumpCounts s, trace := tr ++ d.take env.dispensePrefix ++ [Act.sleepMs 500],
      box := some box }

/-- Lines 285-334: a card carrying an `error` key forces box 10, increments
the failed-read counter and archives the failed capture; otherwise the card
is optionally appended to the CSV, the displayed URL is refreshed, and the
routing scan over the criteria table selects the box. -/
def processCard (env : CycleEnv) (tbl : Nat → Criteria) (s : OrchState)
    (tr : List Act) (card : Card) : CycleResult :=
  if card.error.isSome then
    finishDispense env { s with failedCount := s.failedCount + 1 }
      (tr ++ [Act.archiveFailed]) 10
  else
    let tr1 := tr ++ (if env.csvEnabled then [Act.csvAppend] else [])
    let tr2 := tr1 ++ (if card.card_identified_url != "" then
      [Act.urlUpdate card.card_identified_url] else [])
    finishDispense env s (tr2 ++ [Act.routeConsult]) (select_box card tbl)

/-- Lines 275-334 after a successful feed: run identification, handle the
three outcomes.  A `CalledProcessError` from `Read-Card.py` is caught at
line 356 and skips straight to the counter updates; an unparsable stdout
increments the failed counter (line 281) and substitutes `errorCard`, which
then takes the error branch. -/
def afterFeed (env : CycleEnv) (tbl : Nat → Criteria) (s : OrchState)
    (tr : List Act) : CycleResult :=
  match env.ident with
  | IdentOutcome.procFailure =>
    { st := bumpCounts s, trace := tr ++ [Act.identify, Act.sleepMs 500], box := none }
  | IdentOutcome.unparsable =>
    processCard env tbl { s with failedCount := s.failedCount + 1 }
      (tr ++ [Act.identify]) errorCard
  | IdentOutcome.parsed c =>
    processCard env tbl s (tr ++ [Act.identify]) c

/-- One iteration of the worker loop body (lines 261-365).  The feed is
retried once after a 2 s pause; a second feed failure clears the running
flag and breaks out of the loop, skipping the counter updates. -/
def sorting_cycle (env : CycleEnv) (tbl : Nat → Criteria) (s : OrchState) :
    CycleResult :=
  if env.feed1ok then
    afterFeed env tbl s [Act.feedAttempt]
  else if env.feed2ok then
    afterFeed env tbl s [Act.feedAttempt, Act.sleepMs 2000, Act.feedAttempt]
  else
    { st := { s with running := false },
      trace := [Act.feedAttempt, Act.sleepMs 2000, Act.feedAttempt],
      box := none }

/-- The worker loop `while sorting_active:` observed for a bounded number of
iterations, concatenating the per-cycle traces. -/
def sorting_loop (envs : Nat → CycleEnv) (tbl : Nat → Criteria) :
    Nat → OrchState → OrchState × List Act
  | 0, s => (s, [])
  | fuel + 1, s =>
    if s.running then
      let r := sorting_cycle (envs 0) tbl s
      let rest := sorting_loop (fun n => envs (n + 1)) tbl fuel r.st
      (rest.1, r.trace ++ rest.2)
    else (s, [])

/-! ## Debounced sensor wait (`Feed-Card.py` lines 135-151)

`wait_for_level_stable` polls the sensor every `pollMs` milliseconds until
`timeoutMs` elapses, accepting the target level only after it has been read
continuously for `stableMs`.  Poll `k` of the environment trace `levels` is
idealised to happen exactly `k * pollMs` after entry; `ss` carries the
Python `stable_start` variable as the poll index at which the current
contiguous run of target readings began.  The fuel argument only bounds the
recursion; the wrapper passes enough fuel that the timeout always fires
first. -/

def waitAux (levels : Nat → Nat) (target timeoutMs stableMs pollMs : Nat) :
    Nat → Nat → Option Nat → Bool
  | 0, _, _ => false
  | fuel + 1, k, ss =>
    if k * pollMs < timeoutMs then
      if levels k = target then
        match ss with
        | none => waitAux levels target timeoutMs stableMs pollMs fuel (k + 1) (some k)
        | some s =>
          if stableMs ≤ (k - s) * pollMs then true
          else waitAux levels target timeoutMs stableMs pollMs fuel (k + 1) (some s)
      else waitAux levels target timeoutMs stableMs pollMs fuel (k + 1) none
    else false

def wait_for_level_stable (levels : Nat → Nat) (target timeoutMs : Nat)
    (stableMs : Nat := 40) (pollMs : Nat := 5) : Bool :=
  waitAux levels target timeoutMs stableMs pollMs (timeoutMs + 1) 0 none

/-! ## Feed sequence (`Feed-Card.py` main flow, lines 156-267)

Each stepper motor is summarised by whether its stepping task has been
signalled to stop and by its four coil pin levels: `none` while a stepping
task is actively driving the coils, `some vs` once the last write left them
at `vs`.  `stop_motor` (lines 125-130) sets the stop event, joins the
stepping thread and then writes 0 to every coil pin, so after it returns the
pins are definitely all de-energized. -/

structure Motor where
  pins : Option (List Nat)
  stopSet : Bool
deriving DecidableEq, Repr

/-- Lines 81-83: all coil pins initialised to 0, stop events initially
unset. -/
def motor_init : Motor := { pins := some [0, 0, 0, 0], stopSet := false }

/-- Starting a stepping thread puts the coils under its control. -/
def start_thread (m : Motor) : Motor := { m with pins := none }

/-- `motorN_stop.clear()` before the Phase 2 restart (lines 214-215). -/
def clear_stop (m : Motor) : Motor := { m with stopSet := false }

/-- Lines 125-130: signal stop, join, then write every coil pin to 0. -/
def stop_motor (_m : Motor) : Motor := { pins := some [0, 0, 0, 0], stopSet := true }

structure FeedResult where
  exitCode : Nat
  m1 : Motor
  m2 : Motor
  m3 : Motor
deriving DecidableEq, Repr

/-- The straight-line main flow, parameterised by the results of the three
debounced sensor waits: entry-sensor blocked (line 185), entry-sensor clear
(line 233), exit-sensor blocked (line 254).  Exit code 1 on any timeout,
0 on success. -/
def feed_main (ok1 okClear ok2 : Bool) : FeedResult :=
  let m1 := start_thread motor_init
  let m2 := start_thread motor_init
  let m3 := start_thread motor_init
  if ok1 = false then
    { exitCode := 1, m1 := stop_motor m1, m2 := stop_motor m2, m3 := stop_motor m3 }
  else
    let m1 := stop_motor m1
    let m2 := stop_motor m2
    let m1 := start_thread (clear_stop m1)
    let m2 := start_thread (clear_stop m2)
    if okClear = false then
      { exitCode := 1, m1 := stop_motor m1, m2 := stop_motor m2, m3 := stop_motor m3 }
    else
      let m1 := stop_motor m1
      let m2 := stop_motor m2
      if ok2 = false then
        { exitCode := 1, m1 := m1, m2 := m2, m3 := stop_motor m3 }
      else
        { exitCode := 0, m1 := m1, m2 := m2, m3 := stop_motor m3 }

/-- The feed sequence driven by the three sensor poll traces, with the
source's constants: blocked level 1, clear level 0, timeouts 8 s / 5 s /
10 s, 40 ms stabilisation window, 5 ms poll interval. -/
def feed_run (tr1 trClear tr2 : Nat → Nat) : FeedResult :=
  feed_main (wait_for_level_stable tr1 1 8000 40 5)
            (wait_for_level_stable trClear 0 5000 40 5)
            (wait_for_level_stable tr2 1 10000 40 5)

/-! ## Flapper servo command (`Flapper-6_Open.py` lines 19-24, identical in
`Flapper-4_Closed.py` lines 17-22)

`set_servo_angle` is modelled as the list of pulse-width commands it issues:
an in-range angle produces exactly one `set_servo_pulsewidth` call with
`(angle / 180) * 1000 + 500` microseconds; an out-of-range angle falls
through silently (no command, no exception).  The arithmetic is exact
rational; Python evaluates the same formula in floating point. -/

def set_servo_angle (angle : Rat) : List Rat :=
  if 0 ≤ angle ∧ angle ≤ 180 then [(angle / 180) * 1000 + 500] else []

/-! ## Helper lemmas -/

theorem find?_range'_eq_some (p : Nat → Bool) :
    ∀ (n s i : Nat), s ≤ i → i < s + n → p i = true →
      (∀ j, s ≤ j → j < i → p j = false) →
      List.find? p (List.range' s n) = some i := by
  intro n
  induction n with
  | zero => intro s i h1 h2 _ _; omega
  | succ m ih =>
    intro s i h1 h2 hp hmin
    rw [List.range'_succ]
    rcases Nat.eq_or_lt_of_le h1 with heq | hlt
    · subst heq
      rw [List.find?_cons_of_pos _ hp]
    · rw [List.find?_cons_of_neg _ (by simp [hmin s le_rfl hlt])]
      exact ih (s + 1) i hlt (by omega) hp (fun j hj1 hj2 => hmin j (by omega) hj2)

theorem find?_range'_eq_none (p : Nat → Bool) :
    ∀ (n s : Nat), (∀ j, s ≤ j → j < s + n → p j = false) →
      List.find? p (List.range' s n) = none := by
  intro n
  induction n with
  | zero => intro s _; simp [List.range']
  | succ m ih =>
    intro s h
    rw [List.range'_succ]
    rw [List.find?_cons_of_neg _ (by simp [h s le_rfl (by omega)])]
    exact ih (s + 1) (fun j hj1 hj2 => h j (by omega) (by omega))

theorem find?_range'_bounds (p : Nat → Bool) :
    ∀ (n s i : Nat), List.find? p (List.range' s n) = some i → s ≤ i ∧ i < s + n := by
  intro n
  induction n with
  | zero => intro s i h; simp [List.range'] at h
  | succ m ih =>
    intro s i h
    rw [List.range'_succ] at h
    by_cases hp : p s = true
    · rw [List.find?_cons_of_pos _ hp] at h
      have : s = i := by simpa using h
      omega
    · rw [List.find?_cons_of_neg _ (by simpa using hp)] at h
      have := ih (s + 1) i h
      omega

/-! ## Claim theorems -/

/-- C1: for every identified card and every 10-slot criteria table, the
routing decision scans bins in ascending order 1..10 and returns the first
bin whose criteria match; with no matching bin it returns the default bin
10; the result is always in 1..10, and a match at bin `i` wins even if a
later bin would also match. -/
theorem select_box_first_match (card : Card) (tbl : Nat → Criteria) :
    (1 ≤ select_box card tbl ∧ select_box card tbl ≤ 10)
    ∧ ((∀ i, 1 ≤ i → i ≤ 10 → matches_criteria card (tbl i) = false) →
        select_box card tbl = 10)
    ∧ (∀ i, 1 ≤ i → i ≤ 10 → matches_criteria card (tbl i) = true →
        (∀ j, 1 ≤ j → j < i → matches_criteria card (tbl j) = false) →
        select_box card tbl = i) := by
  refine ⟨?_, ?_, ?_⟩
  · unfold select_box
    cases h : List.find? (fun i => matches_criteria card (tbl i)) (List.range' 1 10) with
    | none => simp
    | some i =>
      have hb := find?_range'_bounds (fun i => matches_criteria card (tbl i)) 10 1 i h
      simpa using ⟨hb.1, by omega⟩
  · intro hall
    unfold select_box
    rw [find?_range'_eq_none (fun i => matches_criteria card (tbl i)) 10 1
      (fun j hj1 hj2 => hall j hj1 (by omega))]
  · intro i h1 h10 hp hmin
    unfold select_box
    rw [find?_range'_eq_some (fun i => matches_criteria card (tbl i)) 10 1 i h1
      (by omega) hp (fun j hj1 hj2 => hmin j hj1 hj2)]

/-- Witness for C1: the spec's end-to-end scenario — bin 3 filters on type
"Creature", all other bins empty; a "Legendary Creature — Human" card routes
to bin 3. -/
theorem select_box_first_match_witness :
    select_box { type := "Legendary Creature — Human" }
      (fun i => if i = 3 then { type := "Creature" } else {}) = 3 :=
  (select_box_first_match { type := "Legendary Creature — Human" }
      (fun i => if i = 3 then { type := "Creature" } else {})).2.2 3
    (by omega) (by omega) (by decide)
    (by intro j h1 h2; interval_cases j <;> decide)

/-- C9: a criteria entry with empty name, cmc and set fields, an empty colors
list and a type that is empty or the `-none-` sentinel never matches any
card. -/
theorem empty_criteria_never_match (card : Card) (crit : Criteria)
    (hn : crit.name = "") (hc : crit.cmc = "") (hs : crit.set_symbol = "")
    (hcol : crit.colors = []) (ht : crit.type = "" ∨ crit.type = "-none-") :
    matches_criteria card crit = false := by
  have hg : criteriaNonEmpty crit = false := by
    rcases ht with ht | ht
    · simp [criteriaNonEmpty, hn, hc, hs, hcol, ht]
    · simp [criteriaNonEmpty, hn, hc, hs, hcol, ht]
      decide
  simp [matches_criteria, hg]

/-- Witness for C9: the all-empty criteria entry with the `-none-` type
sentinel rejects a concrete card. -/
theorem empty_criteria_never_match_witness :
    matches_criteria
      { name := "Lightning Bolt", type := "Instant", cmc := 1, colors := ["R"] }
      ⟨"", "-none-", "", "", []⟩ = false :=
  empty_criteria_never_match _ _ rfl rfl rfl rfl (Or.inr rfl)

theorem contains_mem (l : List String) (x : String) :
    l.contains x = true ↔ x ∈ l := by
  simp

theorem pySetEq_iff (a b : List String) :
    pySetEq a b = true ↔ ∀ x, x ∈ a ↔ x ∈ b := by
  unfold pySetEq
  simp only [Bool.and_eq_true, List.all_eq_true, contains_mem]
  constructor
  · rintro ⟨h1, h2⟩ x
    exact ⟨fun hx => h1 x hx, fun hx => h2 x hx⟩
  · intro h
    exact ⟨fun x hx => (h x).mp hx, fun x hx => (h x).mpr hx⟩

/-- C8: with a non-empty colors filter, the colors condition inside
`matches_criteria` matches only cards with an empty color set when the
filter set is exactly the colorless marker `{"C"}`, and otherwise requires
the card's color set to equal the filter's set exactly (as Python sets,
i.e. up to membership). -/
theorem colors_filter_exact (crit : Criteria) (card : Card)
    (hne : crit.colors ≠ []) :
    ((∀ x, x ∈ crit.colors ↔ x = "C") →
       (colorsCheck crit.colors card.colors = true ↔ card.colors = []))
    ∧ ((¬ ∀ x, x ∈ crit.colors ↔ x = "C") →
       (colorsCheck crit.colors card.colors = true ↔
         ∀ x, x ∈ crit.colors ↔ x ∈ card.colors))
    ∧ (matches_criteria card crit = true →
        colorsCheck crit.colors card.colors = true) := by
  refine ⟨?_, ?_, ?_⟩
  · intro h1
    have hps : pySetEq crit.colors ["C"] = true := by
      rw [pySetEq_iff]
      simpa using h1
    simp [colorsCheck, hps]
  · intro h2
    have hps : pySetEq crit.colors ["C"] = false := by
      cases hb : pySetEq crit.colors ["C"] with
      | false => rfl
      | true =>
        rw [pySetEq_iff] at hb
        exact absurd (by simpa using hb) h2
    simp [colorsCheck, hps, pySetEq_iff]
  · intro hm
    have hg : criteriaNonEmpty crit = true := by
      cases hb : criteriaNonEmpty crit with
      | false => rw [matches_criteria, hb] at hm; simp at hm
      | true => rfl
    rw [matches_criteria, hg] at hm
    simp only [if_true, Bool.and_eq_true] at hm
    have hcol := hm.2
    rwa [if_pos (by simp [hne])] at hcol

/-- Witness for C8: the colorless filter `["C"]` accepted against a card
with an empty color list. -/
theorem colors_filter_exact_witness :
    (["C"] : List String) ≠ [] ∧ colorsCheck ["C"] [] = true :=
  ⟨by decide,
    ((colors_filter_exact ⟨"", "", "", "", ["C"]⟩ {} (by decide)).1
      (by simp)).mpr rfl⟩

/-- Counterexample to C6 as stated: the claim says an out-of-order range
such as "M-A" is malformed and falls back to case-insensitive substring
matching, so the filter "M-A" would match the card named "M-Azar" (whose
lowered name contains "m-a").  The code instead takes the range branch,
where no first letter can be both ≥ M and ≤ A, and rejects the card. -/
theorem name_range_out_of_order_cex :
    matches_criteria { name := "M-Azar" } { name := "M-A" } = false
    ∧ strIn (pyLower "M-A") (pyLower "M-Azar") = true := by decide

/-- C6 (amended): for a name filter containing a hyphen, if the filter
splits on "-" into exactly two parts of stripped length 1 the name
condition holds iff the card name is non-empty (after stripping) and its
uppercased first letter lies in the inclusive code-point range — hence a
range whose letters are out of order matches nothing; only a filter that
does not split into two single-character parts falls back to the
case-insensitive substring test.  The last conjunct ties the name condition
to `matches_criteria` for a name-only criteria entry. -/
theorem name_filter_semantics (filt cardName : String)
    (hh : (pyStrip filt).data.contains '-' = true) :
    (∀ p0 p1, pySplit (pyStrip filt) '-' = [p0, p1] →
      (pyStrip p0).length = 1 → (pyStrip p1).length = 1 →
      (nameCheck filt cardName = true ↔
        (pyStrip cardName ≠ "" ∧
          Char.toUpper ((pyStrip p0).data.headD ' ')
            ≤ Char.toUpper ((pyStrip cardName).data.headD ' ') ∧
          Char.toUpper ((pyStrip cardName).data.headD ' ')
            ≤ Char.toUpper ((pyStrip p1).data.headD ' '))))
    ∧ ((¬ ∃ p0 p1, pySplit (pyStrip filt) '-' = [p0, p1] ∧
          (pyStrip p0).length = 1 ∧ (pyStrip p1).length = 1) →
        (nameCheck filt cardName = true ↔
          strIn (pyLower (pyStrip filt)) (pyLower (pyStrip cardName)) = true))
    ∧ (∀ p0 p1, pySplit (pyStrip filt) '-' = [p0, p1] →
      (pyStrip p0).length = 1 → (pyStrip p1).length = 1 →
      Char.toUpper ((pyStrip p1).data.headD ' ') <
        Char.toUpper ((pyStrip p0).data.headD ' ') →
      nameCheck filt cardName = false)
    ∧ (∀ c : Card, filt ≠ "" →
        matches_criteria c ⟨filt, "", "", "", []⟩ = nameCheck filt c.name) := by
  have main : ∀ p0 p1, pySplit (pyStrip filt) '-' = [p0, p1] →
      (pyStrip p0).length = 1 → (pyStrip p1).length = 1 →
      (nameCheck filt cardName = true ↔
        (pyStrip cardName ≠ "" ∧
          Char.toUpper ((pyStrip p0).data.headD ' ')
            ≤ Char.toUpper ((pyStrip cardName).data.headD ' ') ∧
          Char.toUpper ((pyStrip cardName).data.headD ' ')
            ≤ Char.toUpper ((pyStrip p1).data.headD ' '))) := by
    intro p0 p1 hsplit hl0 hl1
    rw [nameCheck]
    simp only [hh, if_true, hsplit]
    rw [if_pos ⟨hl0, hl1⟩]
    by_cases hcn : pyStrip cardName = ""
    · simp [hcn]
    · simp [hcn, not_lt]
  refine ⟨main, ?_, ?_, ?_⟩
  · intro hmal
    rw [nameCheck]
    simp only [hh, if_true]
    rcases hsp : pySplit (pyStrip filt) '-' with _ | ⟨a, _ | ⟨b, _ | ⟨c, t⟩⟩⟩
    · exact Iff.rfl
    · exact Iff.rfl
    · by_cases h01 : (pyStrip a).length = 1 ∧ (pyStrip b).length = 1
      · exact absurd ⟨a, b, hsp, h01.1, h01.2⟩ hmal
      · dsimp only
        rw [if_neg h01]
    · exact Iff.rfl
  · intro p0 p1 hsplit hl0 hl1 hlt
    cases hres : nameCheck filt cardName with
    | false => rfl
    | true =>
      have h := (main p0 p1 hsplit hl0 hl1).mp hres
      exact absurd (le_trans h.2.1 h.2.2) (not_le.mpr hlt)
  · intro c hfilt
    simp [matches_criteria, criteriaNonEmpty, hfilt]

/-- Witness for C6: the well-formed range "A-M" accepts a card whose first
letter D lies inside the range. -/
theorem name_filter_semantics_witness :
    nameCheck "A-M" "Dragon" = true :=
  ((name_filter_semantics "A-M" "Dragon" (by decide)).1 "A" "M"
    (by decide) (by decide) (by decide)).mpr (by decide)

/-- Counterexample to C5 as stated: the claim puts the capture actuation
before the gate close for a non-default bin ("the gate is not closed between
the release and the capture steps").  In the code the flapper-close script
runs before `Card-Capture.py`: at bin 5 the close command precedes the
capture command, so no capture-then-close ordering exists in the sequence. -/
theorem dispense_close_before_capture_cex :
    dispense_actions 5 = [Act.flapperOpen 5, Act.release, Act.sleepMs 2000,
      Act.flapperClose 5, Act.capture]
    ∧ ¬ ∃ k l : Fin (dispense_actions 5).length, k < l ∧
        (dispense_actions 5).get k = Act.capture ∧
        (dispense_actions 5).get l = Act.flapperClose 5 := by decide

/-- C5 (amended): for a non-default bin 1..9 the dispense sequence is: open
the bin's gate, release, a fixed 2 s pause, close the bin's gate, and then
capture (the gate closes between the release and the capture steps); for
bin 10 it is release, 2 s pause, capture, with no gate commands. -/
theorem dispense_sequence (b : Nat) (h1 : 1 ≤ b) (h9 : b ≤ 9) :
    dispense_actions b = [Act.flapperOpen b, Act.release, Act.sleepMs 2000,
      Act.flapperClose b, Act.capture]
    ∧ dispense_actions 10 = [Act.release, Act.sleepMs 2000, Act.capture] := by
  constructor
  · rw [dispense_actions, if_neg (by omega)]
  · rfl

/-- Witness for C5 (amended) at bin 5. -/
theorem dispense_sequence_witness :
    dispense_actions 5 = [Act.flapperOpen 5, Act.release, Act.sleepMs 2000,
      Act.flapperClose 5, Act.capture]
    ∧ dispense_actions 10 = [Act.release, Act.sleepMs 2000, Act.capture] :=
  dispense_sequence 5 (by omega) (by omega)

/-- C10: an angle outside 0..180 issues no servo pulse-width command (and
raises nothing — the function falls through silently); an angle inside the
range issues exactly one command of `(angle / 180) * 1000 + 500`
microseconds. -/
theorem set_servo_angle_range (a : Rat) :
    ((a < 0 ∨ 180 < a) → set_servo_angle a = [])
    ∧ (0 ≤ a → a ≤ 180 → set_servo_angle a = [(a / 180) * 1000 + 500]) := by
  constructor
  · intro h
    rw [set_servo_angle, if_neg]
    rintro ⟨h0, h180⟩
    rcases h with h | h
    · exact absurd h0 (not_le.mpr h)
    · exact absurd h180 (not_le.mpr h)
  · intro h0 h180
    rw [set_servo_angle, if_pos ⟨h0, h180⟩]

/-- Witness for C10: 90 degrees is in range and commands 1000 µs. -/
theorem set_servo_angle_range_witness :
    (0 : Rat) ≤ 90 ∧ (90 : Rat) ≤ 180
    ∧ set_servo_angle 90 = [(90 / 180) * 1000 + 500] :=
  ⟨by norm_num, by norm_num,
    (set_servo_angle_range 90).2 (by norm_num) (by norm_num)⟩

theorem finishDispense_st (env : CycleEnv) (s : OrchState) (tr : List Act)
    (box : Nat) : (finishDispense env s tr box).st = bumpCounts s := by
  unfold finishDispense
  dsimp only
  split <;> rfl

theorem finishDispense_box (env : CycleEnv) (s : OrchState) (tr : List Act)
    (box : Nat) : (finishDispense env s tr box).box = some box := by
  unfold finishDispense
  dsimp only
  split <;> rfl

theorem finishDispense_trace_mem (env : CycleEnv) (s : OrchState)
    (tr : List Act) (box : Nat) {a : Act} (ha : a ∉ tr)
    (hd : a ∉ dispense_actions box) (hu : a ≠ Act.updateImgs)
    (hs : ∀ ms, a ≠ Act.sleepMs ms) :
    a ∉ (finishDispense env s tr box).trace := by
  unfold finishDispense
  dsimp only
  split <;> intro hmem <;>
    simp only [List.mem_append, List.mem_cons, List.not_mem_nil, or_false] at hmem
  · rcases hmem with (h | h) | h | h
    · exact ha h
    · exact hd h
    · exact hu h
    · exact hs 500 h
  · rcases hmem with (h | h) | h
    · exact ha h
    · exact hd (List.take_subset _ _ h)
    · exact hs 500 h

theorem finishDispense_running (env : CycleEnv) (s : OrchState) (tr : List Act)
    (box : Nat) : (finishDispense env s tr box).st.running = s.running := by
  rw [finishDispense_st]
  rfl

theorem processCard_running (env : CycleEnv) (tbl : Nat → Criteria)
    (s : OrchState) (tr : List Act) (card : Card) :
    (processCard env tbl s tr card).st.running = s.running := by
  unfold processCard
  split <;> rw [finishDispense_running]

theorem afterFeed_running (env : CycleEnv) (tbl : Nat → Criteria)
    (s : OrchState) (tr : List Act) :
    (afterFeed env tbl s tr).st.running = s.running := by
  unfold afterFeed
  cases env.ident with
  | procFailure => rfl
  | unparsable => rw [processCard_running]
  | parsed c => rw [processCard_running]

theorem sorting_loop_not_running (envs : Nat → CycleEnv) (tbl : Nat → Criteria)
    (fuel : Nat) (st : OrchState) (h : st.running = false) :
    sorting_loop envs tbl fuel st = (st, []) := by
  cases fuel with
  | zero => rfl
  | succ n => rw [sorting_loop, if_neg (by simp [h])]

/-- C2 evidence: in a cycle whose identification stdout cannot be parsed as
JSON, the failed-read counter increments TWICE (once in the
`json.JSONDecodeError` handler at line 281, and once more in the
`"error" in card` branch at line 288) — not once as the claim states; the
routing decision is forced to 10 without scanning the criteria table, the
lifetime and monthly counters each increment by exactly 1, and the running
flag is untouched. -/
theorem parse_error_cycle (env : CycleEnv) (tbl : Nat → Criteria)
    (s : OrchState) (hfeed : env.feed1ok = true)
    (hid : env.ident = IdentOutcome.unparsable) :
    (sorting_cycle env tbl s).st.failedCount = s.failedCount + 2
    ∧ (sorting_cycle env tbl s).st.moveCount = s.moveCount + 1
    ∧ (sorting_cycle env tbl s).st.monthlyCount = s.monthlyCount + 1
    ∧ (sorting_cycle env tbl s).st.running = s.running
    ∧ (sorting_cycle env tbl s).box = some 10
    ∧ Act.routeConsult ∉ (sorting_cycle env tbl s).trace := by
  have hcy : sorting_cycle env tbl s
      = finishDispense env { s with failedCount := s.failedCount + 1 + 1 }
          [Act.feedAttempt, Act.identify, Act.archiveFailed] 10 := by
    unfold sorting_cycle afterFeed processCard
    simp [hfeed, hid, errorCard]
  rw [hcy]
  refine ⟨?_, ?_, ?_, ?_, ?_, ?_⟩
  · rw [finishDispense_st]
    simp [bumpCounts]
  · rw [finishDispense_st]
    simp [bumpCounts]
  · rw [finishDispense_st]
    simp [bumpCounts]
  · rw [finishDispense_running]
  · rw [finishDispense_box]
  · exact finishDispense_trace_mem env _ _ 10 (by decide) (by decide)
      (by decide) (fun ms h => Act.noConfusion h)

/-- Witness for C2's evidence theorem at a concrete cycle. -/
theorem parse_error_cycle_witness :
    (sorting_cycle ⟨true, true, IdentOutcome.unparsable, false, 99⟩
        (fun _ => {}) ⟨true, 0, 0, 0⟩).st.failedCount = 0 + 2
    ∧ (sorting_cycle ⟨true, true, IdentOutcome.unparsable, false, 99⟩
        (fun _ => {}) ⟨true, 0, 0, 0⟩).st.moveCount = 0 + 1
    ∧ (sorting_cycle ⟨true, true, IdentOutcome.unparsable, false, 99⟩
        (fun _ => {}) ⟨true, 0, 0, 0⟩).st.monthlyCount = 0 + 1
    ∧ (sorting_cycle ⟨true, true, IdentOutcome.unparsable, false, 99⟩
        (fun _ => {}) ⟨true, 0, 0, 0⟩).st.running = true
    ∧ (sorting_cycle ⟨true, true, IdentOutcome.unparsable, false, 99⟩
        (fun _ => {}) ⟨true, 0, 0, 0⟩).box = some 10
    ∧ Act.routeConsult ∉ (sorting_cycle ⟨true, true, IdentOutcome.unparsable, false, 99⟩
        (fun _ => {}) ⟨true, 0, 0, 0⟩).trace :=
  parse_error_cycle ⟨true, true, IdentOutcome.unparsable, false, 99⟩
    (fun _ => {}) ⟨true, 0, 0, 0⟩ rfl rfl

/-- C3: a cycle clears the running flag iff both the initial feed and its
single retry fail; in that case the cycle's whole external trace is feed
attempt, 2 s pause, feed attempt — no identification, no dispense — the
selected box is never assigned, and the worker loop performs nothing
further regardless of how many more iterations it is observed for. -/
theorem feed_double_failure (envs : Nat → CycleEnv) (tbl : Nat → Criteria)
    (s : OrchState) (fuel : Nat) (hrun : s.running = true) :
    ((sorting_cycle (envs 0) tbl s).st.running = false ↔
      ((envs 0).feed1ok = false ∧ (envs 0).feed2ok = false))
    ∧ ((envs 0).feed1ok = false → (envs 0).feed2ok = false →
        (sorting_cycle (envs 0) tbl s).trace
            = [Act.feedAttempt, Act.sleepMs 2000, Act.feedAttempt]
        ∧ (sorting_cycle (envs 0) tbl s).box = none
        ∧ sorting_loop envs tbl (fuel + 1) s
            = ((sorting_cycle (envs 0) tbl s).st,
               [Act.feedAttempt, Act.sleepMs 2000, Act.feedAttempt])) := by
  refine ⟨?_, ?_⟩
  · unfold sorting_cycle
    cases h1 : (envs 0).feed1ok with
    | true => simp [afterFeed_running, hrun]
    | false =>
      cases h2 : (envs 0).feed2ok with
      | true => simp [afterFeed_running, hrun]
      | false => simp
  · intro hf1 hf2
    have hcy : sorting_cycle (envs 0) tbl s
        = { st := { s with running := false },
            trace := [Act.feedAttempt, Act.sleepMs 2000, Act.feedAttempt],
            box := none } := by
      unfold sorting_cycle
      rw [if_neg (by simp [hf1]), if_neg (by simp [hf2])]
    refine ⟨by rw [hcy], by rw [hcy], ?_⟩
    rw [sorting_loop, if_pos hrun, hcy]
    simp [sorting_loop_not_running]

/-- Witness for C3: a concrete double feed failure stops a running worker. -/
theorem feed_double_failure_witness :
    (sorting_cycle ((fun _ => ⟨false, false, IdentOutcome.procFailure, false, 0⟩ :
        Nat → CycleEnv) 0) (fun _ => {}) ⟨true, 0, 0, 0⟩).st.running = false :=
  ((feed_double_failure (fun _ => ⟨false, false, IdentOutcome.procFailure, false, 0⟩)
      (fun _ => {}) ⟨true, 0, 0, 0⟩ 0 rfl).1).mpr ⟨rfl, rfl⟩

/-- C4: on every execution path of the feed sequence — success or any of the
three sensor-wait timeouts — the sequence returns with every stepping task's
stop event signalled and every motor coil pin written to 0 on all three
motors. -/
theorem feed_halts_all_motors (tr1 trC tr2 : Nat → Nat) :
    (feed_run tr1 trC tr2).m1 = { pins := some [0, 0, 0, 0], stopSet := true }
    ∧ (feed_run tr1 trC tr2).m2 = { pins := some [0, 0, 0, 0], stopSet := true }
    ∧ (feed_run tr1 trC tr2).m3 = { pins := some [0, 0, 0, 0], stopSet := true } := by
  have h : ∀ a b c : Bool,
      (feed_main a b c).m1 = { pins := some [0, 0, 0, 0], stopSet := true }
      ∧ (feed_main a b c).m2 = { pins := some [0, 0, 0, 0], stopSet := true }
      ∧ (feed_main a b c).m3 = { pins := some [0, 0, 0, 0], stopSet := true } := by
    decide
  exact h _ _ _

theorem waitAux_succ_none (levels : Nat → Nat)
    (target timeout stable poll n k : Nat) :
    waitAux levels target timeout stable poll (n + 1) k none
    = if k * poll < timeout then
        (if levels k = target then
          waitAux levels target timeout stable poll n (k + 1) (some k)
        else waitAux levels target timeout stable poll n (k + 1) none)
      else false := rfl

theorem waitAux_succ_some (levels : Nat → Nat)
    (target timeout stable poll n k s : Nat) :
    waitAux levels target timeout stable poll (n + 1) k (some s)
    = if k * poll < timeout then
        (if levels k = target then
          (if stable ≤ (k - s) * poll then true
           else waitAux levels target timeout stable poll n (k + 1) (some s))
        else waitAux levels target timeout stable poll n (k + 1) none)
      else false := rfl

/-- Soundness of the debounce loop: a `true` result exhibits a contiguous
run of target readings, at least the stabilisation window long, completing
before the timeout. -/
theorem waitAux_true_run (levels : Nat → Nat) (target timeout stable poll : Nat) :
    ∀ (fuel k : Nat) (ss : Option Nat),
      (∀ s, ss = some s → s ≤ k ∧ ∀ j, s ≤ j → j < k → levels j = target) →
      waitAux levels target timeout stable poll fuel k ss = true →
      ∃ s e, s ≤ e ∧ e * poll < timeout ∧ stable ≤ (e - s) * poll ∧
        ∀ j, s ≤ j → j ≤ e → levels j = target := by
  intro fuel
  induction fuel with
  | zero =>
    intro k ss _ h
    simp [waitAux] at h
  | succ n ih =>
    intro k ss hinv h
    cases ss with
    | none =>
      rw [waitAux_succ_none] at h
      by_cases hk : k * poll < timeout
      · rw [if_pos hk] at h
        by_cases hl : levels k = target
        · rw [if_pos hl] at h
          refine ih (k + 1) (some k) ?_ h
          intro s hs
          injection hs with hs
          subst hs
          refine ⟨Nat.le_succ k, fun j hj1 hj2 => ?_⟩
          have hj : j = k := by omega
          rw [hj]; exact hl
        · rw [if_neg hl] at h
          exact ih (k + 1) none (fun s hs => Option.noConfusion hs) h
      · rw [if_neg hk] at h
        exact absurd h (by simp)
    | some s =>
      obtain ⟨hsk, hrunv⟩ := hinv s rfl
      rw [waitAux_succ_some] at h
      by_cases hk : k * poll < timeout
      · rw [if_pos hk] at h
        by_cases hl : levels k = target
        · rw [if_pos hl] at h
          by_cases hst : stable ≤ (k - s) * poll
          · refine ⟨s, k, hsk, hk, hst, fun j hj1 hj2 => ?_⟩
            rcases Nat.lt_or_ge j k with hj | hj
            · exact hrunv j hj1 hj
            · have hj' : j = k := by omega
              rw [hj']; exact hl
          · rw [if_neg hst] at h
            refine ih (k + 1) (some s) ?_ h
            intro s' hs'
            injection hs' with hs'
            subst hs'
            refine ⟨Nat.le_succ_of_le hsk, fun j hj1 hj2 => ?_⟩
            rcases Nat.lt_or_ge j k with hj | hj
            · exact hrunv j hj1 hj
            · have hj' : j = k := by omega
              rw [hj']; exact hl
        · rw [if_neg hl] at h
          exact ih (k + 1) none (fun s' hs' => Option.noConfusion hs') h
      · rw [if_neg hk] at h
        exact absurd h (by simp)

/-- Completeness of the debounce loop: a contiguous run of target readings
at least the stabilisation window long, completing before the timeout,
forces a `true` result (tracking the Python `stable_start` variable through
the loop invariants). -/
theorem waitAux_reaches (levels : Nat → Nat)
    (target timeout stable poll s e : Nat) (hstable : 0 < stable)
    (he : e * poll < timeout)
    (hrun : ∀ j, s ≤ j → j ≤ e → levels j = target)
    (hst : stable ≤ (e - s) * poll) :
    ∀ (fuel k : Nat) (ss : Option Nat), k ≤ e → e + 1 ≤ fuel + k →
      (∀ s', ss = some s' → s' ≤ k ∧ ∀ j, s' ≤ j → j < k → levels j = target) →
      (s < k → ∃ s', ss = some s' ∧ s' ≤ s) →
      waitAux levels target timeout stable poll fuel k ss = true := by
  have hse : s < e := by
    rcases Nat.lt_or_ge s e with h | h
    · exact h
    · have h0 : e - s = 0 := by omega
      rw [h0] at hst
      simp at hst
      omega
  intro fuel
  induction fuel with
  | zero =>
    intro k ss hk hfuel _ _
    omega
  | succ n ih =>
    intro k ss hk hfuel hinv hcover
    have hkt : k * poll < timeout :=
      lt_of_le_of_lt (Nat.mul_le_mul_right poll hk) he
    rcases Nat.lt_or_ge k s with hks | hks
    · cases ss with
      | none =>
        rw [waitAux_succ_none, if_pos hkt]
        by_cases hl : levels k = target
        · rw [if_pos hl]
          refine ih (k + 1) (some k) (by omega) (by omega) ?_ (fun h => by omega)
          intro s' hs'
          injection hs' with hs'
          subst hs'
          refine ⟨Nat.le_succ k, fun j hj1 hj2 => ?_⟩
          have hj : j = k := by omega
          rw [hj]; exact hl
        · rw [if_neg hl]
          exact ih (k + 1) none (by omega) (by omega)
            (fun s' hs' => Option.noConfusion hs') (fun h => by omega)
      | some t =>
        obtain ⟨htk, htrun⟩ := hinv t rfl
        rw [waitAux_succ_some, if_pos hkt]
        by_cases hl : levels k = target
        · rw [if_pos hl]
          by_cases hstk : stable ≤ (k - t) * poll
          · rw [if_pos hstk]
          · rw [if_neg hstk]
            refine ih (k + 1) (some t) (by omega) (by omega) ?_ (fun h => by omega)
            intro s' hs'
            injection hs' with hs'
            subst hs'
            refine ⟨by omega, fun j hj1 hj2 => ?_⟩
            rcases Nat.lt_or_ge j k with hj | hj
            · exact htrun j hj1 hj
            · have hj' : j = k := by omega
              rw [hj']; exact hl
        · rw [if_neg hl]
          exact ih (k + 1) none (by omega) (by omega)
            (fun s' hs' => Option.noConfusion hs') (fun h => by omega)
    · have hl : levels k = target := hrun k hks hk
      cases ss with
      | none =>
        rcases Nat.lt_or_ge s k with hsk | hsk
        · obtain ⟨s', hs', _⟩ := hcover hsk
          exact Option.noConfusion hs'
        · rw [waitAux_succ_none, if_pos hkt, if_pos hl]
          refine ih (k + 1) (some k) (by omega) (by omega) ?_ ?_
          · intro s' hs'
            injection hs' with hs'
            subst hs'
            refine ⟨Nat.le_succ k, fun j hj1 hj2 => ?_⟩
            have hj : j = k := by omega
            rw [hj]; exact hl
          · intro _
            exact ⟨k, rfl, by omega⟩
      | some t =>
        obtain ⟨htk, htrun⟩ := hinv t rfl
        rw [waitAux_succ_some, if_pos hkt, if_pos hl]
        by_cases hstk : stable ≤ (k - t) * poll
        · rw [if_pos hstk]
        · rw [if_neg hstk]
          have hts : t ≤ s := by
            rcases Nat.lt_or_ge s k with hsk | hsk
            · obtain ⟨s', hs', hs's⟩ := hcover hsk
              injection hs' with hs''
              omega
            · omega
          have hkl : k < e := by
            rcases Nat.lt_or_ge k e with h | h
            · exact h
            · exfalso
              have hke : k = e := by omega
              have : stable ≤ (k - t) * poll :=
                le_trans hst (Nat.mul_le_mul_right poll (by omega))
              exact hstk this
          refine ih (k + 1) (some t) (by omega) (by omega) ?_ ?_
          · intro s' hs'
            injection hs' with hs'
            subst hs'
            refine ⟨by omega, fun j hj1 hj2 => ?_⟩
            rcases Nat.lt_or_ge j k with hj | hj
            · exact htrun j hj1 hj
            · have hj' : j = k := by omega
              rw [hj']; exact hl
          · intro _
            exact ⟨t, rfl, hts⟩

/-- C7: for every sequence of sensor polls, with a positive poll interval
and stabilisation window: if no contiguous run of target-level polls inside
the timeout horizon ever reaches the stabilisation window (every deviation
having reset the accumulator), the debounced wait returns failure; and if
some contiguous run of target-level polls reaches the window before the
timeout, it returns success. -/
theorem wait_for_level_stable_spec (levels : Nat → Nat)
    (target timeout stable poll : Nat) (hpoll : 0 < poll) (hstable : 0 < stable) :
    ((∀ s e, s ≤ e → e * poll < timeout →
        (∀ j, s ≤ j → j ≤ e → levels j = target) → (e - s) * poll < stable) →
      wait_for_level_stable levels target timeout stable poll = false)
    ∧ (∀ s e, e * poll < timeout →
        (∀ j, s ≤ j → j ≤ e → levels j = target) → stable ≤ (e - s) * poll →
        wait_for_level_stable levels target timeout stable poll = true) := by
  constructor
  · intro hflick
    cases hres : wait_for_level_stable levels target timeout stable poll with
    | false => rfl
    | true =>
      obtain ⟨s, e, hse, he, hst, hrun⟩ :=
        waitAux_true_run levels target timeout stable poll (timeout + 1) 0 none
          (fun s hs => Option.noConfusion hs) hres
      exact absurd hst (not_le.mpr (hflick s e hse he hrun))
  · intro s e he hrun hst
    have hfuel : e + 1 ≤ (timeout + 1) + 0 := by
      have h1 : e ≤ e * poll := Nat.le_mul_of_pos_right e hpoll
      omega
    exact waitAux_reaches levels target timeout stable poll s e hstable he hrun hst
      (timeout + 1) 0 none (Nat.zero_le e) hfuel
      (fun s' hs' => Option.noConfusion hs')
      (fun h => absurd h (Nat.not_lt_zero s))

/-- Witness for C7 at the source's default window (40 ms) and poll interval
(5 ms): a sensor held at the target from the start succeeds; a sensor that
never reads the target fails. -/
theorem wait_for_level_stable_spec_witness :
    wait_for_level_stable (fun _ => 1) 1 100 40 5 = true
    ∧ wait_for_level_stable (fun _ => 0) 1 100 40 5 = false := by
  constructor
  · exact (wait_for_level_stable_spec (fun _ => 1) 1 100 40 5
      (by omega) (by omega)).2 0 8 (by omega) (fun j _ _ => rfl) (by omega)
  · exact (wait_for_level_stable_spec (fun _ => 0) 1 100 40 5
      (by omega) (by omega)).1
      (fun s e hse he hrun => absurd (hrun s le_rfl hse) (by omega))

end Sorter
